import Mathlib

/-!
Verification of the main-process lifecycle coordinator of a desktop
note-taking application shell (Electron main process).

The development shallowly embeds the relevant source code:

* `buildIndexFile` embeds `src/app/javascripts/main/indexBuilder.ts`.
  The TypeScript imports a fixed HTML template (`index.html`, not part of
  the analysed sources), so the template is made an explicit parameter.
* `squeeze` / `pathJoin2` / `pathJoin3` model Node's `path.posix.join`
  restricted to the shapes used by the program (plain segments, no `.`
  or `..` components): segments are joined with `/` and runs of
  consecutive slashes are collapsed to a single slash.
* `AppConfig` / `AppState` / `step` / `run` embed the coordinator in
  `application.ts` (`initializeApplication`, `initializeExtensionsServer`,
  `registerSingleInstanceHandler`, `registerAppEventListeners`,
  `finishApplicationInitialization`) as an event-driven state machine on
  the single cooperative event loop: each `Ev` is one event-loop turn
  (platform lifecycle event or settlement of a pending promise), and
  `step` runs the corresponding handler or continuation to its next
  suspension point.
* `handleIpc` embeds the three request/reply handlers of
  `registerIpcEventListeners`.
-/

namespace SNDesktop

/-! ## JS string replacement

`replaceFirst` models `String.prototype.replace` with a string pattern:
only the leftmost occurrence is replaced, and the replacement text is
inserted literally (no call site uses `$`-substitution patterns).
`replaceAll` models `replace` with a `/g` regex whose pattern is a string
literal: every occurrence is replaced left to right, scanning resumes
after the inserted replacement. The empty-pattern edge case never arises:
both patterns in the program are fixed non-empty tokens. -/

def replaceFirst (pat repl : List Char) : List Char → List Char
  | [] => []
  | c :: rest =>
    if pat.isPrefixOf (c :: rest) then repl ++ (c :: rest).drop pat.length
    else c :: replaceFirst pat repl rest

/-- Fuelled worker for `replaceAll`; the fuel is an upper bound on the
number of scanning steps, each of which consumes at least one character. -/
def replaceAllFuel (pat repl : List Char) : Nat → List Char → List Char
  | 0, s => s
  | _ + 1, [] => []
  | fuel + 1, c :: rest =>
    if pat ≠ [] ∧ pat.isPrefixOf (c :: rest) then
      repl ++ replaceAllFuel pat repl fuel ((c :: rest).drop pat.length)
    else
      c :: replaceAllFuel pat repl fuel rest

def replaceAll (pat repl s : List Char) : List Char :=
  replaceAllFuel pat repl s.length s

/-- Whether `pat` occurs as a contiguous substring of `s` (used to state
that a placeholder token does or does not remain in an output). -/
def hasInfix (pat : List Char) : List Char → Bool
  | [] => pat.isEmpty
  | c :: rest => pat.isPrefixOf (c :: rest) || hasInfix pat rest

/-- The single-occurrence placeholder token for the extensions-server
host name (the braces are written with escapes). -/
def extServerHostNameToken : String := "\x7b\x7bEXT_SERVER_HOST_NAME\x7d\x7d"

/-- The multi-occurrence placeholder token for the base resource path. -/
def baseUrlTokenStr : String := "\x7b\x7bBASE_URL\x7d\x7d"

/-- Embeds `buildIndexFile` of `indexBuilder.ts`:
`index.replace('{EXT token}', hostName).replace(/{BASE token}/g, baseUrl)`.
The imported template `index` is passed explicitly as `template`. -/
def buildIndexFile (hostName baseUrl template : String) : String :=
  String.mk
    (replaceAll baseUrlTokenStr.data baseUrl.data
      (replaceFirst extServerHostNameToken.data hostName.data template.data))

/-! ## Node `path.posix.join` model -/

/-- Collapse every run of consecutive `/` characters to a single `/`. -/
def squeeze : List Char → List Char
  | [] => []
  | [c] => [c]
  | c₁ :: c₂ :: rest =>
    if c₁ = '/' ∧ c₂ = '/' then squeeze (c₂ :: rest)
    else c₁ :: squeeze (c₂ :: rest)

theorem squeeze_cons₂ (c d : Char) (l : List Char) :
    squeeze (c :: d :: l)
      = if c = '/' ∧ d = '/' then squeeze (d :: l) else c :: squeeze (d :: l) := rfl

theorem squeeze_head (c : Char) (l : List Char) : ∃ t, squeeze (c :: l) = c :: t := by
  induction l generalizing c with
  | nil => exact ⟨[], rfl⟩
  | cons d l ih =>
    by_cases h : c = '/' ∧ d = '/'
    · obtain ⟨t, ht⟩ := ih d
      exact ⟨t, by rw [squeeze_cons₂, if_pos h, ht, h.1, h.2]⟩
    · exact ⟨squeeze (d :: l), by rw [squeeze_cons₂, if_neg h]⟩

theorem squeeze_idem (l : List Char) : squeeze (squeeze l) = squeeze l := by
  induction l with
  | nil => rfl
  | cons c l ih =>
    cases l with
    | nil => rfl
    | cons d l' =>
      by_cases h : c = '/' ∧ d = '/'
      · rw [squeeze_cons₂, if_pos h]
        exact ih
      · obtain ⟨t, ht⟩ := squeeze_head d l'
        rw [ht] at ih
        rw [squeeze_cons₂, if_neg h, ht, squeeze_cons₂, if_neg h, ih]

theorem squeeze_cons_squeeze (c : Char) (l : List Char) :
    squeeze (c :: squeeze l) = squeeze (c :: l) := by
  cases l with
  | nil => rfl
  | cons d l' =>
    obtain ⟨t, ht⟩ := squeeze_head d l'
    have hidem : squeeze (d :: t) = d :: t := by
      have h₁ := squeeze_idem (d :: l')
      rw [ht] at h₁
      exact h₁
    rw [ht]
    by_cases h : c = '/' ∧ d = '/'
    · rw [squeeze_cons₂, if_pos h, squeeze_cons₂, if_pos h, hidem, ← ht]
    · rw [squeeze_cons₂, if_neg h, squeeze_cons₂, if_neg h, hidem, ← ht]

theorem squeeze_append (xs ys : List Char) :
    squeeze (xs ++ squeeze ys) = squeeze (xs ++ ys) := by
  induction xs with
  | nil => simpa using squeeze_idem ys
  | cons x xs ih =>
    cases xs with
    | nil => simpa using squeeze_cons_squeeze x ys
    | cons y xs' =>
      by_cases h : x = '/' ∧ y = '/'
      · rw [List.cons_append, List.cons_append, squeeze_cons₂, if_pos h,
          List.cons_append, List.cons_append, squeeze_cons₂, if_pos h]
        simpa using ih
      · rw [List.cons_append, List.cons_append, squeeze_cons₂, if_neg h,
          List.cons_append, List.cons_append, squeeze_cons₂, if_neg h]
        have h₂ := ih
        simp only [List.cons_append] at h₂
        rw [h₂]

/-- `path.posix.join(a, b)` for plain segments. -/
def pathJoin2 (a b : String) : String :=
  String.mk (squeeze (a.data ++ '/' :: b.data))

/-- `path.posix.join(a, b, c)` for plain segments. -/
def pathJoin3 (a b c : String) : String :=
  String.mk (squeeze (a.data ++ '/' :: (b.data ++ '/' :: c.data)))

theorem pathJoin2_pathJoin2 (a b c : String) :
    pathJoin2 a (pathJoin2 b c) = pathJoin3 a b c := by
  unfold pathJoin2 pathJoin3
  have hmk : (String.mk (squeeze (b.data ++ '/' :: c.data))).data
      = squeeze (b.data ++ '/' :: c.data) := rfl
  rw [hmk, List.append_cons a.data '/' (squeeze (b.data ++ '/' :: c.data)),
    List.append_cons a.data '/' (b.data ++ '/' :: c.data), squeeze_append]

/-! ## Web-root resolution (`application.ts`)

`webRootOf` embeds the startup computation of `AppState.webRoot`
(lines 36–39): `'APP_RELATIVE_PATH' in process.env ?
path.join(__dirname, rel) : __dirname`. `webRootReply` embeds the body
of the `WebRoot` IPC handler (lines 203–214), which re-reads
`process.env` at call time. `env` is the value of
`process.env.APP_RELATIVE_PATH` (`none` when the variable is absent). -/

def webRootOf (dirname : String) (env : Option String) : String :=
  match env with
  | some rel => pathJoin2 dirname rel
  | none => dirname

def webRootReply (dirname : String) (env : Option String) : String :=
  match env with
  | some rel => pathJoin3 "file://" dirname rel
  | none => pathJoin2 "file://" dirname

/-! ## Window handle and the second-instance handler

`Window` abstracts the Electron `BrowserWindow` handle as seen through
the calls the coordinator makes on it (`isVisible`/`show`,
`isMinimized`/`restore`, `focus`). The window construction internals
live in `window.ts`, a collaborator outside the analysed sources. -/

structure Window where
  visible : Bool
  minimized : Bool
  focused : Bool
deriving DecidableEq

inductive WinAction where
  | show
  | restore
  | focus
deriving DecidableEq

def applyWinAction (w : Window) : WinAction → Window
  | .show => { w with visible := true }
  | .restore => { w with minimized := false }
  | .focus => { w with focused := true }

/-- The calls issued by the `second-instance` listener of
`registerSingleInstanceHandler` (`application.ts` lines 86–98), in
program order: `show()` when not visible, `restore()` when minimized,
then always `focus()`; nothing when no window handle exists. -/
def secondInstanceActions : Option Window → List WinAction
  | none => []
  | some w =>
    (if w.visible then [] else [.show])
      ++ (if w.minimized then [.restore] else []) ++ [.focus]

/-- Net effect of the `second-instance` listener on the window handle. -/
def secondInstanceHandler (ow : Option Window) : Option Window :=
  match ow with
  | none => none
  | some w => some ((secondInstanceActions (some w)).foldl applyWinAction w)

/-! ## IPC request/reply handlers (`registerIpcEventListeners`) -/

/-- The settings-store keys read by the coordinator (`store.ts` is a
collaborator; only the key names appear in the analysed sources). -/
inductive StoreKeys where
  | useSystemMenuBar
  | minimizeToTray
deriving DecidableEq

/-- Modelled from the spec: the persistent settings store is a key/value
accessor whose read operation (`get`) totally maps each defined key to
its current value; its internals are out of scope. -/
def Store : Type := StoreKeys → Bool

/-- The three request/reply IPC messages (`ipcMessages` values
`ExtensionsServerAddress`, `UseSystemMenuBar`, `WebRoot`). -/
inductive IpcRequest where
  | extensionsServerAddress
  | useSystemMenuBar
  | webRoot
deriving DecidableEq

inductive IpcReply where
  /-- The handler returned a promise: the shared
  `state.extensionsServerAddress` future, identified by reference. -/
  | pendingFuture (id : Nat)
  | boolValue (b : Bool)
  | strValue (s : String)
deriving DecidableEq

/-- The portion of `AppState` read by the request/reply handlers:
the store handle, the identity of the one shared address promise, and
(for the model only) whether that promise has settled yet — the
handlers never consult it. -/
structure IpcState where
  store : Store
  addressFutureId : Nat
  serverSettled : Bool

/-- Embeds the three `ipcMain.handle` registrations of
`registerIpcEventListeners` (`application.ts` lines 194–214). A thrown
synchronous exception would be `Except.error`; each body is a plain
expression, so every reply is `Except.ok`. The `WebRoot` body re-reads
`process.env.APP_RELATIVE_PATH` (`env`) at call time. -/
def handleIpc (st : IpcState) (env : Option String) (dirname : String) :
    IpcRequest → Except String IpcReply
  | .extensionsServerAddress => .ok (.pendingFuture st.addressFutureId)
  | .useSystemMenuBar => .ok (.boolValue (st.store .useSystemMenuBar))
  | .webRoot => .ok (.strValue (webRootReply dirname env))

/-! ## The coordinator as an event-driven state machine

`AppConfig` holds the values fixed at process start (the read-only
fields of the source `AppState` plus platform facts); `AppState` holds
the evolving coordinator state, together with observation fields
recording the externally visible effects (dialogs shown, quit requests,
start-document writes, URL loads). -/

structure AppConfig where
  isPrimaryInstance : Bool
  isMacPlatform : Bool
  startUrl : String
  webRoot : String
  /-- Content of the imported `index.html` template. -/
  template : String
  /-- The window handle produced by `createWindowState` (collaborator). -/
  initWindow : Window
deriving DecidableEq

/-- Settlement state of the shared `extensionsServerAddress` promise,
following `initializeExtensionsServer` (`application.ts` lines 68–80):
first `createExtensionsServer()` is awaited, then the start-document
write is awaited, and only then does the promise resolve with the host
name; a failure of either step rejects it. -/
inductive ServerPhase where
  | awaitingHost
  | awaitingWrite (hostName : String)
  | resolved (hostName : String)
  | rejected
deriving DecidableEq

structure AppState where
  willQuitApp : Bool
  windowState : Option Window
  serverPhase : ServerPhase
  /-- Contents of the start-document writes issued so far (in order). -/
  docWrites : List String
  /-- Whether the start-document write promise has resolved. -/
  writeDone : Bool
  /-- Number of blocking error dialogs shown (`dialog.showMessageBoxSync`). -/
  dialogCount : Nat
  /-- Whether `app.quit()` has been called. -/
  quitCalled : Bool
  ipcRegistered : Bool
  /-- Whether `finishApplicationInitialization` is suspended at
  `await state.extensionsServerAddress`. -/
  awaitingAddress : Bool
  /-- Whether the `ready` event has been handled (Electron fires it once). -/
  readyHandled : Bool
  /-- URLs passed to `window.loadURL`, in order. -/
  loadedUrls : List String
deriving DecidableEq

/-- The events that can occur on the single event loop: Electron
lifecycle events and settlements of the two pending promises inside
`initializeExtensionsServer`. -/
inductive Ev where
  | serverStarted (hostName : String)
  | serverFailed
  | writeCompleted
  | writeFailed
  | ready
  | secondInstance
  | allWindowsClosed
  | beforeQuit
  | activate
  | windowTeardown
deriving DecidableEq

/-- Embeds `initializeApplication` (`application.ts` lines 26–66): the
single-instance lock is requested synchronously, `webRoot`/`startUrl`
are computed, and `initializeExtensionsServer` is invoked
unconditionally — the server-start pipeline is already pending in the
initial state, regardless of `isPrimaryInstance`. -/
def initializeApplication (_cfg : AppConfig) : AppState :=
  { willQuitApp := false
    windowState := none
    serverPhase := .awaitingHost
    docWrites := []
    writeDone := false
    dialogCount := 0
    quitCalled := false
    ipcRegistered := false
    awaitingAddress := false
    readyHandled := false
    loadedUrls := [] }

/-- One event-loop turn. Each branch runs the corresponding source
handler (or async continuation) up to its next suspension point:

* `serverStarted`/`serverFailed`: settlement of `createExtensionsServer()`
  inside `initializeExtensionsServer`; on success the start-document
  write is issued with `buildIndexFile` output, on failure the shared
  promise rejects and its `catch` (lines 52–57) shows one blocking
  dialog and calls `app.quit()`.
* `writeCompleted`/`writeFailed`: settlement of the `fs.promises.writeFile`
  promise; completion resolves the shared address promise, waking the
  suspended `finishApplicationInitialization` (which then calls
  `window.loadURL(startUrl)`).
* `ready`: the `ready` listener (lines 126–134) — a non-primary instance
  quits immediately; a primary instance runs
  `finishApplicationInitialization` (lines 137–174): create the window
  state, register the IPC handlers, then await the address promise.
* The remaining events embed the other listeners of
  `registerAppEventListeners` and `registerSingleInstanceHandler`, plus
  the teardown callback passed to `createWindowState`. -/
def step (cfg : AppConfig) (s : AppState) : Ev → AppState
  | .serverStarted h =>
    match s.serverPhase with
    | .awaitingHost =>
      { s with serverPhase := .awaitingWrite h
               docWrites := s.docWrites ++ [buildIndexFile h cfg.webRoot cfg.template] }
    | _ => s
  | .serverFailed =>
    match s.serverPhase with
    | .awaitingHost =>
      { s with serverPhase := .rejected
               dialogCount := s.dialogCount + 1
               quitCalled := true
               awaitingAddress := false }
    | _ => s
  | .writeCompleted =>
    match s.serverPhase with
    | .awaitingWrite h =>
      if s.awaitingAddress then
        { s with serverPhase := .resolved h
                 writeDone := true
                 awaitingAddress := false
                 loadedUrls := s.loadedUrls ++ [cfg.startUrl] }
      else
        { s with serverPhase := .resolved h, writeDone := true }
    | _ => s
  | .writeFailed =>
    match s.serverPhase with
    | .awaitingWrite _ =>
      { s with serverPhase := .rejected
               dialogCount := s.dialogCount + 1
               quitCalled := true
               awaitingAddress := false }
    | _ => s
  | .ready =>
    if s.readyHandled then s
    else if !cfg.isPrimaryInstance then
      { s with readyHandled := true, quitCalled := true }
    else
      match s.serverPhase with
      | .resolved _ =>
        { s with readyHandled := true
                 windowState := some cfg.initWindow
                 ipcRegistered := true
                 loadedUrls := s.loadedUrls ++ [cfg.startUrl] }
      | .rejected =>
        { s with readyHandled := true
                 windowState := some cfg.initWindow
                 ipcRegistered := true }
      | _ =>
        { s with readyHandled := true
                 windowState := some cfg.initWindow
                 ipcRegistered := true
                 awaitingAddress := true }
  | .secondInstance => { s with windowState := secondInstanceHandler s.windowState }
  | .allWindowsClosed =>
    if cfg.isMacPlatform then s else { s with quitCalled := true }
  | .beforeQuit => { s with willQuitApp := true }
  | .activate =>
    match s.windowState with
    | none => s
    | some w => { s with windowState := some { w with visible := true } }
  | .windowTeardown => { s with windowState := none }

/-- A whole process lifetime: `initializeApplication` followed by the
events delivered by the event loop, in order. -/
def run (cfg : AppConfig) (t : List Ev) : AppState :=
  t.foldl (step cfg) (initializeApplication cfg)

/-! ### Unfolding lemmas for `step`, one per reachable branch -/

theorem step_serverStarted_of_awaitingHost (cfg : AppConfig) (s : AppState) (h : String)
    (hp : s.serverPhase = .awaitingHost) :
    step cfg s (.serverStarted h)
      = { s with serverPhase := .awaitingWrite h
                 docWrites := s.docWrites ++ [buildIndexFile h cfg.webRoot cfg.template] } := by
  simp [step, hp]

theorem step_serverStarted_id (cfg : AppConfig) (s : AppState) (h : String)
    (hp : s.serverPhase ≠ .awaitingHost) :
    step cfg s (.serverStarted h) = s := by
  cases hp' : s.serverPhase with
  | awaitingHost => exact absurd hp' hp
  | awaitingWrite h' => simp [step, hp']
  | resolved h' => simp [step, hp']
  | rejected => simp [step, hp']

theorem step_serverFailed_of_awaitingHost (cfg : AppConfig) (s : AppState)
    (hp : s.serverPhase = .awaitingHost) :
    step cfg s .serverFailed
      = { s with serverPhase := .rejected
                 dialogCount := s.dialogCount + 1
                 quitCalled := true
                 awaitingAddress := false } := by
  simp [step, hp]

theorem step_serverFailed_id (cfg : AppConfig) (s : AppState)
    (hp : s.serverPhase ≠ .awaitingHost) :
    step cfg s .serverFailed = s := by
  cases hp' : s.serverPhase with
  | awaitingHost => exact absurd hp' hp
  | awaitingWrite h' => simp [step, hp']
  | resolved h' => simp [step, hp']
  | rejected => simp [step, hp']

theorem step_writeCompleted_of_awaitingWrite_awaiting (cfg : AppConfig) (s : AppState)
    (h : String) (hp : s.serverPhase = .awaitingWrite h) (ha : s.awaitingAddress = true) :
    step cfg s .writeCompleted
      = { s with serverPhase := .resolved h
                 writeDone := true
                 awaitingAddress := false
                 loadedUrls := s.loadedUrls ++ [cfg.startUrl] } := by
  simp [step, hp, ha]

theorem step_writeCompleted_of_awaitingWrite_idle (cfg : AppConfig) (s : AppState)
    (h : String) (hp : s.serverPhase = .awaitingWrite h) (ha : s.awaitingAddress = false) :
    step cfg s .writeCompleted
      = { s with serverPhase := .resolved h, writeDone := true } := by
  simp [step, hp, ha]

theorem step_writeCompleted_id (cfg : AppConfig) (s : AppState)
    (hp : ∀ h, s.serverPhase ≠ .awaitingWrite h) :
    step cfg s .writeCompleted = s := by
  cases hp' : s.serverPhase with
  | awaitingHost => simp [step, hp']
  | awaitingWrite h' => exact absurd hp' (hp h')
  | resolved h' => simp [step, hp']
  | rejected => simp [step, hp']

theorem step_writeFailed_of_awaitingWrite (cfg : AppConfig) (s : AppState) (h : String)
    (hp : s.serverPhase = .awaitingWrite h) :
    step cfg s .writeFailed
      = { s with serverPhase := .rejected
                 dialogCount := s.dialogCount + 1
                 quitCalled := true
                 awaitingAddress := false } := by
  simp [step, hp]

theorem step_writeFailed_id (cfg : AppConfig) (s : AppState)
    (hp : ∀ h, s.serverPhase ≠ .awaitingWrite h) :
    step cfg s .writeFailed = s := by
  cases hp' : s.serverPhase with
  | awaitingHost => simp [step, hp']
  | awaitingWrite h' => exact absurd hp' (hp h')
  | resolved h' => simp [step, hp']
  | rejected => simp [step, hp']

theorem step_ready_handled (cfg : AppConfig) (s : AppState)
    (hr : s.readyHandled = true) :
    step cfg s .ready = s := by
  simp [step, hr]

theorem step_ready_secondary (cfg : AppConfig) (s : AppState)
    (hr : s.readyHandled = false) (hp : cfg.isPrimaryInstance = false) :
    step cfg s .ready = { s with readyHandled := true, quitCalled := true } := by
  simp [step, hr, hp]

theorem step_ready_resolved (cfg : AppConfig) (s : AppState) (h : String)
    (hr : s.readyHandled = false) (hp : cfg.isPrimaryInstance = true)
    (hres : s.serverPhase = .resolved h) :
    step cfg s .ready
      = { s with readyHandled := true
                 windowState := some cfg.initWindow
                 ipcRegistered := true
                 loadedUrls := s.loadedUrls ++ [cfg.startUrl] } := by
  simp [step, hr, hp, hres]

theorem step_ready_rejected (cfg : AppConfig) (s : AppState)
    (hr : s.readyHandled = false) (hp : cfg.isPrimaryInstance = true)
    (hres : s.serverPhase = .rejected) :
    step cfg s .ready
      = { s with readyHandled := true
                 windowState := some cfg.initWindow
                 ipcRegistered := true } := by
  simp [step, hr, hp, hres]

theorem step_ready_pending (cfg : AppConfig) (s : AppState)
    (hr : s.readyHandled = false) (hp : cfg.isPrimaryInstance = true)
    (hpend : s.serverPhase = .awaitingHost ∨ ∃ h, s.serverPhase = .awaitingWrite h) :
    step cfg s .ready
      = { s with readyHandled := true
                 windowState := some cfg.initWindow
                 ipcRegistered := true
                 awaitingAddress := true } := by
  rcases hpend with hph | ⟨h, hph⟩
  · simp [step, hr, hp, hph]
  · simp [step, hr, hp, hph]

theorem step_secondInstance (cfg : AppConfig) (s : AppState) :
    step cfg s .secondInstance
      = { s with windowState := secondInstanceHandler s.windowState } := rfl

theorem step_allWindowsClosed_mac (cfg : AppConfig) (s : AppState)
    (hm : cfg.isMacPlatform = true) :
    step cfg s .allWindowsClosed = s := by
  simp [step, hm]

theorem step_allWindowsClosed_nonmac (cfg : AppConfig) (s : AppState)
    (hm : cfg.isMacPlatform = false) :
    step cfg s .allWindowsClosed = { s with quitCalled := true } := by
  simp [step, hm]

theorem step_beforeQuit (cfg : AppConfig) (s : AppState) :
    step cfg s .beforeQuit = { s with willQuitApp := true } := rfl

theorem step_activate_none (cfg : AppConfig) (s : AppState)
    (hw : s.windowState = none) :
    step cfg s .activate = s := by
  simp [step, hw]

theorem step_activate_some (cfg : AppConfig) (s : AppState) (w : Window)
    (hw : s.windowState = some w) :
    step cfg s .activate = { s with windowState := some { w with visible := true } } := by
  simp [step, hw]

theorem step_windowTeardown (cfg : AppConfig) (s : AppState) :
    step cfg s .windowTeardown = { s with windowState := none } := rfl

/-! ### The reachable-state invariant of the coordinator -/

/-- Invariant maintained by every event-loop turn, starting from
`initializeApplication`. Its clauses:
* `rej`/`norej`: the bootstrap `catch` continuation runs exactly once,
  on rejection, showing one dialog and requesting quit; the start URL is
  never loaded in a rejected lifetime.
* `loaded`: a URL is only ever loaded once, it is the start URL, and at
  that point the IPC handlers are registered, `ready` has been handled,
  and the shared address promise has resolved.
* `writesHost`/`writesContent`: no start-document write is issued before
  the server host name resolves, and the single issued write carries the
  `buildIndexFile` output for that host name.
* `awaiting`: the suspended `finishApplicationInitialization` has already
  created the window and registered IPC, and the address promise is
  still unsettled.
* `writeDoneIff`: the address promise resolves exactly when the
  start-document write has completed.
* `secondary`: a non-primary instance never creates a window, never
  registers IPC, and never loads a URL; once its `ready` fired, it has
  requested quit. -/
structure Inv (cfg : AppConfig) (s : AppState) : Prop where
  rej : s.serverPhase = .rejected →
    s.dialogCount = 1 ∧ s.quitCalled = true ∧ s.loadedUrls = []
  norej : s.serverPhase ≠ .rejected → s.dialogCount = 0
  loaded : s.loadedUrls ≠ [] →
    s.ipcRegistered = true ∧ s.readyHandled = true ∧
      s.loadedUrls = [cfg.startUrl] ∧ ∃ h, s.serverPhase = .resolved h
  writesHost : s.serverPhase = .awaitingHost → s.docWrites = []
  writesContent : ∀ h, s.serverPhase = .awaitingWrite h ∨ s.serverPhase = .resolved h →
    s.docWrites = [buildIndexFile h cfg.webRoot cfg.template]
  awaiting : s.awaitingAddress = true →
    s.ipcRegistered = true ∧ s.readyHandled = true ∧
      (s.serverPhase = .awaitingHost ∨ ∃ h, s.serverPhase = .awaitingWrite h)
  writeDoneIff : s.writeDone = true ↔ ∃ h, s.serverPhase = .resolved h
  secondary : cfg.isPrimaryInstance = false →
    s.windowState = none ∧ s.ipcRegistered = false ∧ s.awaitingAddress = false ∧
      s.loadedUrls = [] ∧ (s.readyHandled = true → s.quitCalled = true)

theorem inv_init (cfg : AppConfig) : Inv cfg (initializeApplication cfg) := by
  refine ⟨?_, ?_, ?_, ?_, ?_, ?_, ?_, ?_⟩ <;>
    simp [initializeApplication]

theorem inv_step (cfg : AppConfig) (s : AppState) (hs : Inv cfg s) (e : Ev) :
    Inv cfg (step cfg s e) := by
  cases e with
  | serverStarted h =>
    by_cases hp : s.serverPhase = .awaitingHost
    · rw [step_serverStarted_of_awaitingHost cfg s h hp]
      have hw : s.docWrites = [] := hs.writesHost hp
      have hload : s.loadedUrls = [] := by
        by_contra hl
        obtain ⟨-, -, -, h', hres⟩ := hs.loaded hl
        rw [hp] at hres
        cases hres
      refine ⟨?_, ?_, ?_, ?_, ?_, ?_, ?_, ?_⟩
      · intro hc; cases hc
      · intro _
        exact hs.norej (by rw [hp]; intro hc; cases hc)
      · intro hne
        exact absurd hload (by simpa using hne)
      · intro hc; cases hc
      · intro h' hcase
        rcases hcase with hc | hc
        · cases hc
          simp [hw]
        · cases hc
      · intro ha
        obtain ⟨hipc, hready, -⟩ := hs.awaiting ha
        exact ⟨hipc, hready, Or.inr ⟨h, rfl⟩⟩
      · constructor
        · intro hwd
          obtain ⟨h', hres⟩ := hs.writeDoneIff.mp hwd
          rw [hp] at hres
          cases hres
        · rintro ⟨h', hc⟩
          cases hc
      · intro hsec
        obtain ⟨hwin, hipc, hawait, hloads, hrq⟩ := hs.secondary hsec
        exact ⟨hwin, hipc, hawait, hloads, hrq⟩
    · rw [step_serverStarted_id cfg s h hp]
      exact hs
  | serverFailed =>
    by_cases hp : s.serverPhase = .awaitingHost
    · rw [step_serverFailed_of_awaitingHost cfg s hp]
      have hdial : s.dialogCount = 0 :=
        hs.norej (by rw [hp]; intro hc; cases hc)
      have hload : s.loadedUrls = [] := by
        by_contra hl
        obtain ⟨-, -, -, h', hres⟩ := hs.loaded hl
        rw [hp] at hres
        cases hres
      refine ⟨?_, ?_, ?_, ?_, ?_, ?_, ?_, ?_⟩
      · intro _
        exact ⟨by simp [hdial], rfl, hload⟩
      · intro hne
        exact absurd rfl hne
      · intro hne
        exact absurd hload (by simpa using hne)
      · intro hc; cases hc
      · intro h' hcase
        rcases hcase with hc | hc <;> cases hc
      · intro ha; cases ha
      · constructor
        · intro hwd
          obtain ⟨h', hres⟩ := hs.writeDoneIff.mp hwd
          rw [hp] at hres
          cases hres
        · rintro ⟨h', hc⟩
          cases hc
      · intro hsec
        obtain ⟨hwin, hipc, -, hloads, -⟩ := hs.secondary hsec
        exact ⟨hwin, hipc, rfl, hloads, fun _ => rfl⟩
    · rw [step_serverFailed_id cfg s hp]
      exact hs
  | writeCompleted =>
    by_cases hp : ∃ h, s.serverPhase = .awaitingWrite h
    · obtain ⟨h, hph⟩ := hp
      have hnorej : s.serverPhase ≠ .rejected := by rw [hph]; intro hc; cases hc
      have hload : s.loadedUrls = [] := by
        by_contra hl
        obtain ⟨-, -, -, h', hres⟩ := hs.loaded hl
        rw [hph] at hres
        cases hres
      have hdocs : s.docWrites = [buildIndexFile h cfg.webRoot cfg.template] :=
        hs.writesContent h (Or.inl hph)
      by_cases ha : s.awaitingAddress = true
      · obtain ⟨hipc, hready, -⟩ := hs.awaiting ha
        rw [step_writeCompleted_of_awaitingWrite_awaiting cfg s h hph ha]
        refine ⟨?_, ?_, ?_, ?_, ?_, ?_, ?_, ?_⟩
        · intro hc; cases hc
        · intro _
          exact hs.norej hnorej
        · intro _
          exact ⟨hipc, hready, by simp [hload], ⟨h, rfl⟩⟩
        · intro hc; cases hc
        · intro h' hcase
          rcases hcase with hc | hc
          · cases hc
          · cases hc
            exact hdocs
        · intro hc; cases hc
        · exact ⟨fun _ => ⟨h, rfl⟩, fun _ => rfl⟩
        · intro hsec
          obtain ⟨-, -, hawait, -, -⟩ := hs.secondary hsec
          rw [hawait] at ha
          cases ha
      · have ha' : s.awaitingAddress = false := by
          cases hb : s.awaitingAddress
          · rfl
          · exact absurd hb ha
        rw [step_writeCompleted_of_awaitingWrite_idle cfg s h hph ha']
        refine ⟨?_, ?_, ?_, ?_, ?_, ?_, ?_, ?_⟩
        · intro hc; cases hc
        · intro _
          exact hs.norej hnorej
        · intro hne
          exact absurd hload (by simpa using hne)
        · intro hc; cases hc
        · intro h' hcase
          rcases hcase with hc | hc
          · cases hc
          · cases hc
            exact hdocs
        · intro hc
          exact absurd hc ha
        · exact ⟨fun _ => ⟨h, rfl⟩, fun _ => rfl⟩
        · intro hsec
          obtain ⟨hwin, hipc, hawait, hloads, hrq⟩ := hs.secondary hsec
          exact ⟨hwin, hipc, hawait, hloads, hrq⟩
    · rw [step_writeCompleted_id cfg s (by push_neg at hp; exact hp)]
      exact hs
  | writeFailed =>
    by_cases hp : ∃ h, s.serverPhase = .awaitingWrite h
    · obtain ⟨h, hph⟩ := hp
      rw [step_writeFailed_of_awaitingWrite cfg s h hph]
      have hdial : s.dialogCount = 0 :=
        hs.norej (by rw [hph]; intro hc; cases hc)
      have hload : s.loadedUrls = [] := by
        by_contra hl
        obtain ⟨-, -, -, h', hres⟩ := hs.loaded hl
        rw [hph] at hres
        cases hres
      refine ⟨?_, ?_, ?_, ?_, ?_, ?_, ?_, ?_⟩
      · intro _
        exact ⟨by simp [hdial], rfl, hload⟩
      · intro hne
        exact absurd rfl hne
      · intro hne
        exact absurd hload (by simpa using hne)
      · intro hc; cases hc
      · intro h' hcase
        rcases hcase with hc | hc <;> cases hc
      · intro ha; cases ha
      · constructor
        · intro hwd
          obtain ⟨h', hres⟩ := hs.writeDoneIff.mp hwd
          rw [hph] at hres
          cases hres
        · rintro ⟨h', hc⟩
          cases hc
      · intro hsec
        obtain ⟨hwin, hipc, -, hloads, -⟩ := hs.secondary hsec
        exact ⟨hwin, hipc, rfl, hloads, fun _ => rfl⟩
    · rw [step_writeFailed_id cfg s (by push_neg at hp; exact hp)]
      exact hs
  | ready =>
    by_cases hr : s.readyHandled = true
    · rw [step_ready_handled cfg s hr]
      exact hs
    · have hr' : s.readyHandled = false := by
        cases hb : s.readyHandled
        · rfl
        · exact absurd hb hr
      have hload : s.loadedUrls = [] := by
        by_contra hl
        obtain ⟨-, hready, -, -⟩ := hs.loaded hl
        exact absurd hready hr
      by_cases hpr : cfg.isPrimaryInstance = true
      · cases hph : s.serverPhase with
        | awaitingHost =>
          rw [step_ready_pending cfg s hr' hpr (Or.inl hph)]
          refine ⟨?_, ?_, ?_, ?_, ?_, ?_, ?_, ?_⟩
          · intro hc; rw [hph] at hc; cases hc
          · intro _
            exact hs.norej (by rw [hph]; intro hc; cases hc)
          · intro hne
            exact absurd hload (by simpa using hne)
          · intro _
            exact hs.writesHost hph
          · intro h' hcase
            rcases hcase with hc | hc <;> · rw [hph] at hc; cases hc
          · intro _
            exact ⟨rfl, rfl, Or.inl hph⟩
          · constructor
            · intro hwd
              obtain ⟨h', hres⟩ := hs.writeDoneIff.mp hwd
              rw [hph] at hres
              cases hres
            · rintro ⟨h', hc⟩
              rw [hph] at hc
              cases hc
          · intro hsec
            rw [hpr] at hsec
            cases hsec
        | awaitingWrite h =>
          rw [step_ready_pending cfg s hr' hpr (Or.inr ⟨h, hph⟩)]
          refine ⟨?_, ?_, ?_, ?_, ?_, ?_, ?_, ?_⟩
          · intro hc; rw [hph] at hc; cases hc
          · intro _
            exact hs.norej (by rw [hph]; intro hc; cases hc)
          · intro hne
            exact absurd hload (by simpa using hne)
          · intro hc
            rw [hph] at hc
            cases hc
          · intro h' hcase
            have := hs.writesContent h' hcase
            exact this
          · intro _
            exact ⟨rfl, rfl, Or.inr ⟨h, hph⟩⟩
          · constructor
            · intro hwd
              obtain ⟨h', hres⟩ := hs.writeDoneIff.mp hwd
              rw [hph] at hres
              cases hres
            · rintro ⟨h', hc⟩
              rw [hph] at hc
              cases hc
          · intro hsec
            rw [hpr] at hsec
            cases hsec
        | resolved h =>
          rw [step_ready_resolved cfg s h hr' hpr hph]
          refine ⟨?_, ?_, ?_, ?_, ?_, ?_, ?_, ?_⟩
          · intro hc
            rw [hph] at hc
            cases hc
          · intro _
            exact hs.norej (by rw [hph]; intro hc; cases hc)
          · intro _
            exact ⟨rfl, rfl, by simp [hload], ⟨h, hph⟩⟩
          · intro hc
            rw [hph] at hc
            cases hc
          · intro h' hcase
            exact hs.writesContent h' hcase
          · intro ha
            obtain ⟨-, -, hpend⟩ := hs.awaiting ha
            rcases hpend with hc | ⟨h', hc⟩ <;> · rw [hph] at hc; cases hc
          · exact ⟨fun _ => ⟨h, hph⟩, fun _ => hs.writeDoneIff.mpr ⟨h, hph⟩⟩
          · intro hsec
            rw [hpr] at hsec
            cases hsec
        | rejected =>
          rw [step_ready_rejected cfg s hr' hpr hph]
          obtain ⟨hdial, hquit, hloads⟩ := hs.rej hph
          refine ⟨?_, ?_, ?_, ?_, ?_, ?_, ?_, ?_⟩
          · intro _
            exact ⟨hdial, hquit, hloads⟩
          · intro hne
            exact absurd hph hne
          · intro hne
            exact absurd hloads (by simpa using hne)
          · intro hc
            rw [hph] at hc
            cases hc
          · intro h' hcase
            rcases hcase with hc | hc <;> · rw [hph] at hc; cases hc
          · intro ha
            obtain ⟨-, -, hpend⟩ := hs.awaiting ha
            rcases hpend with hc | ⟨h', hc⟩ <;> · rw [hph] at hc; cases hc
          · constructor
            · intro hwd
              obtain ⟨h', hres⟩ := hs.writeDoneIff.mp hwd
              rw [hph] at hres
              cases hres
            · rintro ⟨h', hc⟩
              rw [hph] at hc
              cases hc
          · intro hsec
            rw [hpr] at hsec
            cases hsec
      · have hpr' : cfg.isPrimaryInstance = false := by
          cases hb : cfg.isPrimaryInstance
          · rfl
          · exact absurd hb hpr
        rw [step_ready_secondary cfg s hr' hpr']
        obtain ⟨hwin, hipc, hawait, hloads, -⟩ := hs.secondary hpr'
        refine ⟨?_, ?_, ?_, ?_, ?_, ?_, ?_, ?_⟩
        · intro hc
          obtain ⟨hdial, -, hl⟩ := hs.rej hc
          exact ⟨hdial, rfl, hl⟩
        · intro hne
          exact hs.norej hne
        · intro hne
          exact absurd hloads (by simpa using hne)
        · intro hc
          exact hs.writesHost hc
        · intro h' hcase
          exact hs.writesContent h' hcase
        · intro ha
          obtain ⟨hipc', -, hpend⟩ := hs.awaiting ha
          exact ⟨hipc', rfl, hpend⟩
        · exact hs.writeDoneIff
        · intro hsec
          exact ⟨hwin, hipc, hawait, hloads, fun _ => rfl⟩
  | secondInstance =>
    rw [step_secondInstance cfg s]
    refine ⟨hs.rej, hs.norej, hs.loaded, hs.writesHost, hs.writesContent,
      hs.awaiting, hs.writeDoneIff, ?_⟩
    intro hsec
    obtain ⟨hwin, hipc, hawait, hloads, hrq⟩ := hs.secondary hsec
    refine ⟨?_, hipc, hawait, hloads, hrq⟩
    rw [hwin]
    rfl
  | allWindowsClosed =>
    by_cases hm : cfg.isMacPlatform = true
    · rw [step_allWindowsClosed_mac cfg s hm]
      exact hs
    · have hm' : cfg.isMacPlatform = false := by
        cases hb : cfg.isMacPlatform
        · rfl
        · exact absurd hb hm
      rw [step_allWindowsClosed_nonmac cfg s hm']
      refine ⟨?_, hs.norej, hs.loaded, hs.writesHost, hs.writesContent,
        hs.awaiting, hs.writeDoneIff, ?_⟩
      · intro hc
        obtain ⟨hdial, -, hl⟩ := hs.rej hc
        exact ⟨hdial, rfl, hl⟩
      · intro hsec
        obtain ⟨hwin, hipc, hawait, hloads, -⟩ := hs.secondary hsec
        exact ⟨hwin, hipc, hawait, hloads, fun _ => rfl⟩
  | beforeQuit =>
    rw [step_beforeQuit cfg s]
    exact ⟨hs.rej, hs.norej, hs.loaded, hs.writesHost, hs.writesContent,
      hs.awaiting, hs.writeDoneIff, hs.secondary⟩
  | activate =>
    cases hw : s.windowState with
    | none =>
      rw [step_activate_none cfg s hw]
      exact hs
    | some w =>
      rw [step_activate_some cfg s w hw]
      refine ⟨hs.rej, hs.norej, hs.loaded, hs.writesHost, hs.writesContent,
        hs.awaiting, hs.writeDoneIff, ?_⟩
      intro hsec
      obtain ⟨hwin, -, -, -, -⟩ := hs.secondary hsec
      rw [hwin] at hw
      cases hw
  | windowTeardown =>
    rw [step_windowTeardown cfg s]
    refine ⟨hs.rej, hs.norej, hs.loaded, hs.writesHost, hs.writesContent,
      hs.awaiting, hs.writeDoneIff, ?_⟩
    intro hsec
    obtain ⟨-, hipc, hawait, hloads, hrq⟩ := hs.secondary hsec
    exact ⟨rfl, hipc, hawait, hloads, hrq⟩

theorem inv_foldl (cfg : AppConfig) (t : List Ev) (s : AppState) (hs : Inv cfg s) :
    Inv cfg (t.foldl (step cfg) s) := by
  induction t generalizing s with
  | nil => exact hs
  | cons e t ih => exact ih (step cfg s e) (inv_step cfg s hs e)

theorem inv_run (cfg : AppConfig) (t : List Ev) : Inv cfg (run cfg t) :=
  inv_foldl cfg t (initializeApplication cfg) (inv_init cfg)

/-- No event handler ever retracts a quit request. -/
theorem step_quit_mono (cfg : AppConfig) (s : AppState) (e : Ev)
    (hq : s.quitCalled = true) : (step cfg s e).quitCalled = true := by
  cases e with
  | serverStarted h =>
    by_cases hp : s.serverPhase = .awaitingHost
    · rw [step_serverStarted_of_awaitingHost cfg s h hp]; exact hq
    · rw [step_serverStarted_id cfg s h hp]; exact hq
  | serverFailed =>
    by_cases hp : s.serverPhase = .awaitingHost
    · rw [step_serverFailed_of_awaitingHost cfg s hp]
    · rw [step_serverFailed_id cfg s hp]; exact hq
  | writeCompleted =>
    by_cases hp : ∃ h, s.serverPhase = .awaitingWrite h
    · obtain ⟨h, hph⟩ := hp
      by_cases ha : s.awaitingAddress = true
      · rw [step_writeCompleted_of_awaitingWrite_awaiting cfg s h hph ha]; exact hq
      · have ha' : s.awaitingAddress = false := by
          cases hb : s.awaitingAddress
          · rfl
          · exact absurd hb ha
        rw [step_writeCompleted_of_awaitingWrite_idle cfg s h hph ha']; exact hq
    · rw [step_writeCompleted_id cfg s (by push_neg at hp; exact hp)]; exact hq
  | writeFailed =>
    by_cases hp : ∃ h, s.serverPhase = .awaitingWrite h
    · obtain ⟨h, hph⟩ := hp
      rw [step_writeFailed_of_awaitingWrite cfg s h hph]
    · rw [step_writeFailed_id cfg s (by push_neg at hp; exact hp)]; exact hq
  | ready =>
    by_cases hr : s.readyHandled = true
    · rw [step_ready_handled cfg s hr]; exact hq
    · have hr' : s.readyHandled = false := by
        cases hb : s.readyHandled
        · rfl
        · exact absurd hb hr
      by_cases hpr : cfg.isPrimaryInstance = true
      · cases hph : s.serverPhase with
        | awaitingHost =>
          rw [step_ready_pending cfg s hr' hpr (Or.inl hph)]; exact hq
        | awaitingWrite h =>
          rw [step_ready_pending cfg s hr' hpr (Or.inr ⟨h, hph⟩)]; exact hq
        | resolved h => rw [step_ready_resolved cfg s h hr' hpr hph]; exact hq
        | rejected => rw [step_ready_rejected cfg s hr' hpr hph]; exact hq
      · have hpr' : cfg.isPrimaryInstance = false := by
          cases hb : cfg.isPrimaryInstance
          · rfl
          · exact absurd hb hpr
        rw [step_ready_secondary cfg s hr' hpr']
  | secondInstance => rw [step_secondInstance cfg s]; exact hq
  | allWindowsClosed =>
    by_cases hm : cfg.isMacPlatform = true
    · rw [step_allWindowsClosed_mac cfg s hm]; exact hq
    · have hm' : cfg.isMacPlatform = false := by
        cases hb : cfg.isMacPlatform
        · rfl
        · exact absurd hb hm
      rw [step_allWindowsClosed_nonmac cfg s hm']
  | beforeQuit => rw [step_beforeQuit cfg s]; exact hq
  | activate =>
    cases hw : s.windowState with
    | none => rw [step_activate_none cfg s hw]; exact hq
    | some w => rw [step_activate_some cfg s w hw]; exact hq
  | windowTeardown => rw [step_windowTeardown cfg s]; exact hq

theorem foldl_quit_mono (cfg : AppConfig) (t : List Ev) (s : AppState)
    (hq : s.quitCalled = true) : (t.foldl (step cfg) s).quitCalled = true := by
  induction t generalizing s with
  | nil => exact hq
  | cons e t ih => exact ih (step cfg s e) (step_quit_mono cfg s e hq)

/-- In a non-primary instance, once the `ready` event has been delivered,
`app.quit()` has been called. -/
theorem foldl_ready_quits (cfg : AppConfig) (t : List Ev) (s : AppState)
    (hs : Inv cfg s) (hpr : cfg.isPrimaryInstance = false) (hm : Ev.ready ∈ t) :
    (t.foldl (step cfg) s).quitCalled = true := by
  induction t generalizing s with
  | nil => cases hm
  | cons e t ih =>
    rcases List.mem_cons.mp hm with he | ht
    · have he' : e = Ev.ready := he.symm
      subst he'
      rw [List.foldl_cons]
      by_cases hr : s.readyHandled = true
      · have hq : s.quitCalled = true := ((hs.secondary hpr).2.2.2.2) hr
        exact foldl_quit_mono cfg t _ (step_quit_mono cfg s .ready hq)
      · have hr' : s.readyHandled = false := by
          cases hb : s.readyHandled
          · rfl
          · exact absurd hb hr
        rw [step_ready_secondary cfg s hr' hpr]
        exact foldl_quit_mono cfg t _ rfl
    · rw [List.foldl_cons]
      exact ih (step cfg s e) (inv_step cfg s hs e) ht

/-- If the address pipeline is not awaiting the disk write, then any
event other than a host-name resolution leaves the issued writes and
the write-completion flag unchanged, keeps the pipeline away from the
awaiting-write and resolved phases, and preserves rejection; a
`serverFailed` event always leaves the pipeline rejected. -/
theorem step_noStart (cfg : AppConfig) (s : AppState) (e : Ev)
    (he : ∀ h, e ≠ Ev.serverStarted h)
    (hph : s.serverPhase = .awaitingHost ∨ s.serverPhase = .rejected) :
    (step cfg s e).docWrites = s.docWrites ∧
      (step cfg s e).writeDone = s.writeDone ∧
      ((step cfg s e).serverPhase = .awaitingHost ∨
        (step cfg s e).serverPhase = .rejected) ∧
      (s.serverPhase = .rejected → (step cfg s e).serverPhase = .rejected) ∧
      (e = Ev.serverFailed → (step cfg s e).serverPhase = .rejected) := by
  have hnoWriteArm : ∀ h, s.serverPhase ≠ .awaitingWrite h := by
    intro h hc
    rcases hph with hp | hp <;> · rw [hp] at hc; cases hc
  cases e with
  | serverStarted h => exact absurd rfl (he h)
  | serverFailed =>
    rcases hph with hp | hp
    · rw [step_serverFailed_of_awaitingHost cfg s hp]
      exact ⟨rfl, rfl, Or.inr rfl, fun _ => rfl, fun _ => rfl⟩
    · rw [step_serverFailed_id cfg s (by rw [hp]; intro hc; cases hc)]
      exact ⟨rfl, rfl, Or.inr hp, fun _ => hp, fun _ => hp⟩
  | writeCompleted =>
    rw [step_writeCompleted_id cfg s hnoWriteArm]
    exact ⟨rfl, rfl, hph, fun hp => hp, fun hc => nomatch hc⟩
  | writeFailed =>
    rw [step_writeFailed_id cfg s hnoWriteArm]
    exact ⟨rfl, rfl, hph, fun hp => hp, fun hc => nomatch hc⟩
  | ready =>
    by_cases hr : s.readyHandled = true
    · rw [step_ready_handled cfg s hr]
      exact ⟨rfl, rfl, hph, fun hp => hp, fun hc => nomatch hc⟩
    · have hr' : s.readyHandled = false := by
        cases hb : s.readyHandled
        · rfl
        · exact absurd hb hr
      by_cases hpr : cfg.isPrimaryInstance = true
      · rcases hph with hp | hp
        · rw [step_ready_pending cfg s hr' hpr (Or.inl hp)]
          refine ⟨rfl, rfl, Or.inl hp, ?_, ?_⟩
          · intro hrej
            rw [hp] at hrej
            cases hrej
          · intro hc
            cases hc
        · rw [step_ready_rejected cfg s hr' hpr hp]
          exact ⟨rfl, rfl, Or.inr hp, fun _ => hp, fun hc => nomatch hc⟩
      · have hpr' : cfg.isPrimaryInstance = false := by
          cases hb : cfg.isPrimaryInstance
          · rfl
          · exact absurd hb hpr
        rw [step_ready_secondary cfg s hr' hpr']
        exact ⟨rfl, rfl, hph, fun hp => hp, fun hc => nomatch hc⟩
  | secondInstance =>
    rw [step_secondInstance cfg s]
    exact ⟨rfl, rfl, hph, fun hp => hp, fun hc => nomatch hc⟩
  | allWindowsClosed =>
    by_cases hm : cfg.isMacPlatform = true
    · rw [step_allWindowsClosed_mac cfg s hm]
      exact ⟨rfl, rfl, hph, fun hp => hp, fun hc => nomatch hc⟩
    · have hm' : cfg.isMacPlatform = false := by
        cases hb : cfg.isMacPlatform
        · rfl
        · exact absurd hb hm
      rw [step_allWindowsClosed_nonmac cfg s hm']
      exact ⟨rfl, rfl, hph, fun hp => hp, fun hc => nomatch hc⟩
  | beforeQuit =>
    rw [step_beforeQuit cfg s]
    exact ⟨rfl, rfl, hph, fun hp => hp, fun hc => nomatch hc⟩
  | activate =>
    cases hw : s.windowState with
    | none =>
      rw [step_activate_none cfg s hw]
      exact ⟨rfl, rfl, hph, fun hp => hp, fun hc => nomatch hc⟩
    | some w =>
      rw [step_activate_some cfg s w hw]
      exact ⟨rfl, rfl, hph, fun hp => hp, fun hc => nomatch hc⟩
  | windowTeardown =>
    rw [step_windowTeardown cfg s]
    exact ⟨rfl, rfl, hph, fun hp => hp, fun hc => nomatch hc⟩

/-- If `createExtensionsServer()` never resolves during a trace, no
start-document write is issued and none completes; if it failed at some
point, the pipeline ends rejected. -/
theorem foldl_noStart_noWrite (cfg : AppConfig) (t : List Ev) (s : AppState)
    (hph : s.serverPhase = .awaitingHost ∨ s.serverPhase = .rejected)
    (hnostart : ∀ h, Ev.serverStarted h ∉ t) :
    (t.foldl (step cfg) s).docWrites = s.docWrites ∧
      (t.foldl (step cfg) s).writeDone = s.writeDone ∧
      (s.serverPhase = .rejected → (t.foldl (step cfg) s).serverPhase = .rejected) ∧
      (Ev.serverFailed ∈ t → (t.foldl (step cfg) s).serverPhase = .rejected) := by
  induction t generalizing s with
  | nil =>
    exact ⟨rfl, rfl, fun h => h, fun hm => absurd hm (List.not_mem_nil _)⟩
  | cons e t ih =>
    have hnostart' : ∀ h, Ev.serverStarted h ∉ t := fun h hm =>
      hnostart h (List.mem_cons_of_mem _ hm)
    have he : ∀ h, e ≠ Ev.serverStarted h := by
      intro h hc
      exact hnostart h (by rw [← hc]; exact List.mem_cons_self _ _)
    obtain ⟨hd, hw, hph', hrej, hfail⟩ := step_noStart cfg s e he hph
    obtain ⟨h1, h2, h3, h4⟩ := ih (step cfg s e) hph' hnostart'
    rw [List.foldl_cons]
    refine ⟨h1.trans hd, h2.trans hw, fun hp => h3 (hrej hp), fun hm => ?_⟩
    rcases List.mem_cons.mp hm with hc | hc
    · exact h3 (hfail hc.symm)
    · exact h4 hc

/-! ## Concrete configurations used by witnesses and counterexamples -/

def windowA : Window := { visible := true, minimized := false, focused := true }

def tmplTrace : String := "A\x7b\x7bEXT_SERVER_HOST_NAME\x7d\x7dB\x7b\x7bBASE_URL\x7d\x7dC"

def cfgPrimary : AppConfig :=
  { isPrimaryInstance := true
    isMacPlatform := false
    startUrl := "/userData/index.html"
    webRoot := "/opt/app"
    template := tmplTrace
    initWindow := windowA }

def cfgSecondary : AppConfig := { cfgPrimary with isPrimaryInstance := false }

def cfgMac : AppConfig := { cfgPrimary with isMacPlatform := true }

def tmplTwoHosts : String :=
  "x\x7b\x7bEXT_SERVER_HOST_NAME\x7d\x7dy\x7b\x7bEXT_SERVER_HOST_NAME\x7d\x7dz"

def tmplScenario : String :=
  "<script src='http://\x7b\x7bEXT_SERVER_HOST_NAME\x7d\x7d'></script><img src='\x7b\x7bBASE_URL\x7d\x7d/a.png'><img src='\x7b\x7bBASE_URL\x7d\x7d/b.png'>"

def tmplDoubleTokens : String :=
  "a\x7b\x7bEXT_SERVER_HOST_NAME\x7d\x7db\x7b\x7bEXT_SERVER_HOST_NAME\x7d\x7dc\x7b\x7bBASE_URL\x7d\x7dd\x7b\x7bBASE_URL\x7d\x7de"

/-! ## Claim C1 -/

/-- Claim C1, counterexample: the claim asserts that on bootstrap
rejection "no window is ever created during that process lifetime". In
the lifetime where `ready` fires before `createExtensionsServer()`
fails, `finishApplicationInitialization` has already created the window
unconditionally (the `ready` handler consults only `isPrimaryInstance`),
so at rejection the dialog is shown once and quit is requested, yet a
window exists. -/
theorem claim1_counterexample :
    (run cfgPrimary [Ev.ready, Ev.serverFailed]).serverPhase = ServerPhase.rejected ∧
    (run cfgPrimary [Ev.ready, Ev.serverFailed]).windowState = some windowA ∧
    (run cfgPrimary [Ev.ready, Ev.serverFailed]).dialogCount = 1 ∧
    (run cfgPrimary [Ev.ready, Ev.serverFailed]).quitCalled = true := by
  decide

/-- Claim C1 (amended): in every process lifetime in which the
extensions-server bootstrap future has rejected, exactly one blocking
error dialog has been shown, `app.quit()` has been called, and the
window has never been instructed to load the start document; however a
window may already have been created if `ready` preceded the
rejection. -/
theorem claim1_rejection_dialog_quit_no_load (cfg : AppConfig) (t : List Ev)
    (hrej : (run cfg t).serverPhase = ServerPhase.rejected) :
    (run cfg t).dialogCount = 1 ∧ (run cfg t).quitCalled = true ∧
      (run cfg t).loadedUrls = [] :=
  (inv_run cfg t).rej hrej

/-- Witness for `claim1_rejection_dialog_quit_no_load` at the trace in
which the server fails immediately. -/
theorem claim1_rejection_dialog_quit_no_load_witness :
    (run cfgPrimary [Ev.serverFailed]).serverPhase = ServerPhase.rejected ∧
    ((run cfgPrimary [Ev.serverFailed]).dialogCount = 1 ∧
      (run cfgPrimary [Ev.serverFailed]).quitCalled = true ∧
      (run cfgPrimary [Ev.serverFailed]).loadedUrls = []) :=
  ⟨by decide,
   claim1_rejection_dialog_quit_no_load cfgPrimary [Ev.serverFailed] (by decide)⟩

/-! ## Claim C2 -/

/-- Claim C2, counterexample: the claim asserts the losing instance
terminates "without invoking any bootstrap step (in particular, the
extensions server is never started and the start document is never
written)". But `initializeApplication` invokes
`initializeExtensionsServer` unconditionally, before the `ready`-time
primary-instance check, so a losing instance whose server resolves
before `ready` has written the start document and resolved the address
promise. -/
theorem claim2_counterexample :
    cfgSecondary.isPrimaryInstance = false ∧
    (run cfgSecondary [Ev.serverStarted "localhost:45653", Ev.writeCompleted, Ev.ready]).docWrites
        = [buildIndexFile "localhost:45653" cfgSecondary.webRoot cfgSecondary.template] ∧
    (run cfgSecondary [Ev.serverStarted "localhost:45653", Ev.writeCompleted, Ev.ready]).docWrites
        ≠ [] ∧
    (run cfgSecondary [Ev.serverStarted "localhost:45653", Ev.writeCompleted, Ev.ready]).serverPhase
        = ServerPhase.resolved "localhost:45653" ∧
    (run cfgSecondary [Ev.serverStarted "localhost:45653", Ev.writeCompleted, Ev.ready]).quitCalled
        = true := by
  decide

/-- Claim C2 (amended): when the single-instance lock is held elsewhere,
no window is ever created, the IPC handlers are never registered, the
start URL is never loaded, and once `ready` has fired the process has
requested quit; however the extensions-server pipeline is started
unconditionally before the check, so the losing instance may still
write the start document. -/
theorem claim2_secondary_instance (cfg : AppConfig) (t : List Ev)
    (hpr : cfg.isPrimaryInstance = false) :
    (run cfg t).windowState = none ∧ (run cfg t).ipcRegistered = false ∧
      (run cfg t).loadedUrls = [] ∧
      (Ev.ready ∈ t → (run cfg t).quitCalled = true) := by
  obtain ⟨hwin, hipc, -, hloads, -⟩ := (inv_run cfg t).secondary hpr
  refine ⟨hwin, hipc, hloads, fun hm => ?_⟩
  exact foldl_ready_quits cfg t (initializeApplication cfg) (inv_init cfg) hpr hm

/-- Witness for `claim2_secondary_instance` on the trace `[ready]`. -/
theorem claim2_secondary_instance_witness :
    (run cfgSecondary [Ev.ready]).windowState = none ∧
    (run cfgSecondary [Ev.ready]).ipcRegistered = false ∧
    (run cfgSecondary [Ev.ready]).loadedUrls = [] ∧
    (run cfgSecondary [Ev.ready]).quitCalled = true := by
  obtain ⟨h1, h2, h3, h4⟩ :=
    claim2_secondary_instance cfgSecondary [Ev.ready] (by decide)
  exact ⟨h1, h2, h3, h4 (by decide)⟩

/-! ## Claim C3 -/

/-- Claim C3: bootstrap ordering. The statement holds for every trace,
hence for every prefix of a lifetime; at any point where the window has
been instructed to load, the shared address promise has resolved (so
the host name arrived first), the start-document write has completed
(`writeDone` — the load is issued only after awaiting the address
promise, which resolves only after the write's completion), the IPC
handlers are already registered, the single load targets the start URL,
and the single write on disk carries the `buildIndexFile` output for
the resolved host name. -/
theorem claim3_bootstrap_ordering (cfg : AppConfig) (t : List Ev)
    (hl : (run cfg t).loadedUrls ≠ []) :
    (run cfg t).ipcRegistered = true ∧
    (run cfg t).writeDone = true ∧
    (run cfg t).loadedUrls = [cfg.startUrl] ∧
    ∃ h, (run cfg t).serverPhase = ServerPhase.resolved h ∧
      (run cfg t).docWrites = [buildIndexFile h cfg.webRoot cfg.template] := by
  obtain ⟨hipc, -, hls, h, hres⟩ := (inv_run cfg t).loaded hl
  exact ⟨hipc, (inv_run cfg t).writeDoneIff.mpr ⟨h, hres⟩, hls,
    h, hres, (inv_run cfg t).writesContent h (Or.inr hres)⟩

/-- Witness for `claim3_bootstrap_ordering` on a successful bootstrap
trace. -/
theorem claim3_bootstrap_ordering_witness :
    (run cfgPrimary [Ev.serverStarted "localhost:45653", Ev.writeCompleted, Ev.ready]).loadedUrls
        ≠ [] ∧
    ((run cfgPrimary [Ev.serverStarted "localhost:45653", Ev.writeCompleted, Ev.ready]).ipcRegistered
        = true ∧
      (run cfgPrimary [Ev.serverStarted "localhost:45653", Ev.writeCompleted, Ev.ready]).writeDone
        = true ∧
      (run cfgPrimary [Ev.serverStarted "localhost:45653", Ev.writeCompleted, Ev.ready]).loadedUrls
        = [cfgPrimary.startUrl] ∧
      ∃ h, (run cfgPrimary [Ev.serverStarted "localhost:45653", Ev.writeCompleted, Ev.ready]).serverPhase
          = ServerPhase.resolved h ∧
        (run cfgPrimary [Ev.serverStarted "localhost:45653", Ev.writeCompleted, Ev.ready]).docWrites
          = [buildIndexFile h cfgPrimary.webRoot cfgPrimary.template]) :=
  ⟨by decide,
   claim3_bootstrap_ordering cfgPrimary
     [Ev.serverStarted "localhost:45653", Ev.writeCompleted, Ev.ready] (by decide)⟩

/-! ## Claim C4 -/

/-- Claim C4, counterexample: the claim asserts that all occurrences of
both placeholder tokens are substituted, leaving zero remaining tokens,
for every template. On a template with two host-name tokens the second
one survives verbatim, because `String.prototype.replace` with a string
pattern replaces only the first occurrence. -/
theorem claim4_counterexample :
    buildIndexFile "h" "b" tmplTwoHosts
        = String.append "xhy" extServerHostNameToken ++ "z" ∧
    hasInfix extServerHostNameToken.data (buildIndexFile "h" "b" tmplTwoHosts).data
        = true := by
  decide

/-- Claim C4 (amended): `buildIndexFile` substitutes the first
occurrence of the host-name token and every occurrence of the base-URL
token; on the claim's scenario template — which contains the host-name
token exactly once — the output is exactly the claimed document and no
placeholder token remains. -/
theorem claim4_scenario_substitution :
    buildIndexFile "ext.local:9999" "/app/root" tmplScenario
        = "<script src='http://ext.local:9999'></script><img src='/app/root/a.png'><img src='/app/root/b.png'>" ∧
    hasInfix extServerHostNameToken.data
        (buildIndexFile "ext.local:9999" "/app/root" tmplScenario).data = false ∧
    hasInfix baseUrlTokenStr.data
        (buildIndexFile "ext.local:9999" "/app/root" tmplScenario).data = false := by
  decide

/-! ## Claim C5 -/

/-- Claim C5, counterexample: the claim asserts the web-root reply
always agrees with the resource base path resolved once at startup
because the environment is not re-checked per call. The handler body
does re-read the environment: with the variable absent at startup
(`webRoot = dirname`) and present at call time, the reply disagrees
with the stored base path. -/
theorem claim5_counterexample :
    webRootReply "/opt/app" (some "ext") ≠ pathJoin2 "file://" (webRootOf "/opt/app" none) ∧
    webRootReply "/opt/app" (some "ext") = "file:/opt/app/ext" ∧
    pathJoin2 "file://" (webRootOf "/opt/app" none) = "file:/opt/app" := by
  decide

/-- Claim C5 (amended): the web-root handler recomputes the path from
the call-time environment; whenever the environment at the call equals
the environment at startup (and nothing in this program mutates it),
the reply is exactly the `file://`-join of the resource base path
stored in the process state. -/
theorem claim5_webroot_agreement (dirname : String) (env : Option String) :
    webRootReply dirname env = pathJoin2 "file://" (webRootOf dirname env) := by
  cases env with
  | none => rfl
  | some rel => exact (pathJoin2_pathJoin2 "file://" dirname rel).symm

/-! ## Claim C6 -/

/-- Claim C6: the `second-instance` handler issues `show()` exactly when
the window is not visible, `restore()` exactly when it is minimized,
always issues `focus()`, leaves the (only) window visible, unminimized
and focused, and is a total no-op when no window handle exists. -/
theorem claim6_second_instance_focus (w : Window) :
    secondInstanceHandler none = none ∧
    secondInstanceActions none = [] ∧
    secondInstanceHandler (some w)
        = some { visible := true, minimized := false, focused := true } ∧
    ((WinAction.show ∈ secondInstanceActions (some w)) ↔ w.visible = false) ∧
    ((WinAction.restore ∈ secondInstanceActions (some w)) ↔ w.minimized = true) ∧
    WinAction.focus ∈ secondInstanceActions (some w) := by
  obtain ⟨v, m, f⟩ := w
  cases v <;> cases m <;> cases f <;> decide

/-! ## Claim C7 -/

/-- Claim C7: when `window-all-closed` fires, the handler is the
identity on every part of the state on the mac platform (the process
stays alive, whatever `willQuitApp` is), and requests quit on every
other platform. -/
theorem claim7_all_windows_closed (cfg : AppConfig) (s : AppState) :
    (cfg.isMacPlatform = true → step cfg s Ev.allWindowsClosed = s) ∧
    (cfg.isMacPlatform = false → (step cfg s Ev.allWindowsClosed).quitCalled = true) :=
  ⟨fun hm => step_allWindowsClosed_mac cfg s hm,
   fun hm => by rw [step_allWindowsClosed_nonmac cfg s hm]⟩

def stWillQuit : AppState := run cfgMac [Ev.beforeQuit]

/-- Witness for `claim7_all_windows_closed`, on the state reached after
`before-quit` has fired (so `willQuitApp = true`). -/
theorem claim7_all_windows_closed_witness :
    step cfgMac stWillQuit Ev.allWindowsClosed = stWillQuit ∧
    (step cfgPrimary stWillQuit Ev.allWindowsClosed).quitCalled = true :=
  ⟨(claim7_all_windows_closed cfgMac stWillQuit).1 rfl,
   (claim7_all_windows_closed cfgPrimary stWillQuit).2 rfl⟩

/-! ## Claim C8 -/

/-- Claim C8: each of the three request/reply IPC handlers returns a
value instead of throwing, for every state — including states in which
the shared address promise has not settled — and the address handler
replies with the one shared address future itself, never a premature or
null value. -/
theorem claim8_ipc_handlers_never_throw (st : IpcState) (env : Option String)
    (dirname : String) :
    (∀ req, ∃ r, handleIpc st env dirname req = Except.ok r) ∧
    (∀ b, handleIpc { st with serverSettled := b } env dirname
        IpcRequest.extensionsServerAddress
        = Except.ok (IpcReply.pendingFuture st.addressFutureId)) := by
  refine ⟨fun req => ?_, fun b => rfl⟩
  cases req with
  | extensionsServerAddress => exact ⟨_, rfl⟩
  | useSystemMenuBar => exact ⟨_, rfl⟩
  | webRoot => exact ⟨_, rfl⟩

/-! ## Claim C9 -/

/-- Claim C9: the two tokens are substituted asymmetrically — on a
template containing each token twice, both base-URL tokens are replaced
but only the first host-name token is; the second survives verbatim in
the output. -/
theorem claim9_asymmetric_substitution :
    buildIndexFile "H" "B" tmplDoubleTokens
        = String.append "aHb" extServerHostNameToken ++ "cBdBe" ∧
    hasInfix extServerHostNameToken.data (buildIndexFile "H" "B" tmplDoubleTokens).data
        = true ∧
    hasInfix baseUrlTokenStr.data (buildIndexFile "H" "B" tmplDoubleTokens).data
        = false := by
  decide

/-! ## Claim C10 -/

/-- Claim C10: if `createExtensionsServer()` rejects (and hence never
resolves — a promise settles once), this process start never issues the
start-document write — the write is sequenced strictly after the host
name resolves — so a previously persisted start document is untouched,
and the pipeline ends rejected. -/
theorem claim10_failed_startup_no_write (cfg : AppConfig) (t : List Ev)
    (hfail : Ev.serverFailed ∈ t) (hnostart : ∀ h, Ev.serverStarted h ∉ t) :
    (run cfg t).docWrites = [] ∧ (run cfg t).writeDone = false ∧
      (run cfg t).serverPhase = ServerPhase.rejected := by
  obtain ⟨h1, h2, -, h4⟩ :=
    foldl_noStart_noWrite cfg t (initializeApplication cfg) (Or.inl rfl) hnostart
  exact ⟨h1, h2, h4 hfail⟩

/-- Witness for `claim10_failed_startup_no_write` on the trace in which
the server fails and `ready` then fires. -/
theorem claim10_failed_startup_no_write_witness :
    Ev.serverFailed ∈ [Ev.serverFailed, Ev.ready] ∧
    ((run cfgPrimary [Ev.serverFailed, Ev.ready]).docWrites = [] ∧
      (run cfgPrimary [Ev.serverFailed, Ev.ready]).writeDone = false ∧
      (run cfgPrimary [Ev.serverFailed, Ev.ready]).serverPhase = ServerPhase.rejected) :=
  ⟨by decide,
   claim10_failed_startup_no_write cfgPrimary [Ev.serverFailed, Ev.ready]
     (by decide) (fun h => by simp)⟩

end SNDesktop
